import Mathlib

/-
Verification development for the jsonlang Go backend (go_backend.go).

The Go program is embedded shallowly:
- Go dynamic values (interface{}) become the inductive type GoVal.
- Go map[string]interface{} objects become association lists Obj with
  string keys; Go map lookup is the first matching entry.
- Go float64 is modelled as the exact rationals ℚ.  Every numeric value
  appearing in the verified properties is a small exact decimal, and the
  operations exercised on numbers (addition of small integers, comparison
  against zero, integer truncation of small indices) are exact on such
  values, so the ℚ model agrees with IEEE double there.
- Go errors (fmt.Errorf results) become the GoVal.verr constructor, since
  the program always carries errors as ordinary values.
- Go standard-library string functions (strings.Split, HasPrefix,
  TrimSpace, Contains, Join) are external collaborators; they are given
  executable models over character lists, exact on the inputs used here.
- Effects of leaf operations that touch the outside world (stdin, clock,
  process exit, random source) are not represented; those operations are
  modelled only by their returned value shape and are unused by the
  verified properties.

Set-up declarations come first, then the definitions translated from the
source, then the theorems.
-/

namespace JL

/-- Go dynamic value (interface\x7b\x7d): string, float64, int, bool, nil,
slice of values, map object, or an error value. -/
inductive GoVal : Type where
  | vnull : GoVal
  | vstr (s : String) : GoVal
  | vnum (q : ℚ) : GoVal
  | vint (n : Int) : GoVal
  | vbool (b : Bool) : GoVal
  | vlist (xs : List GoVal) : GoVal
  | vobj (fields : List (String × GoVal)) : GoVal
  | verr (msg : String) : GoVal

instance : Inhabited GoVal := ⟨GoVal.vnull⟩

open GoVal

/-- Association-list form of a Go map\x5bstring\x5dinterface\x7b\x7d. -/
abbrev Obj := List (String × GoVal)

/-- Go map read m\x5bk\x5d: value of the first entry with the given key. -/
def objLookup (m : Obj) (k : String) : Option GoVal :=
  (m.find? (fun kv => kv.1 == k)).map (fun kv => kv.2)

/-- Go map write m\x5bk\x5d = v: replace the entry in place if the key is
present, otherwise append a new entry. -/
def objSet (m : Obj) (k : String) (v : GoVal) : Obj :=
  if m.any (fun kv => kv.1 == k) then
    m.map (fun kv => if kv.1 == k then (k, v) else kv)
  else
    m ++ [(k, v)]

/-- Check for GoVal.verr: the value is a Go error value. -/
def isErrV : GoVal → Bool
  | verr _ => true
  | _ => false

/-! Models of the Go strings package functions the program uses, written
over character lists so that they evaluate by kernel reduction. -/

/-- Whether the first list is a prefix of the second. -/
def isPreL : List Char → List Char → Bool
  | [], _ => true
  | _ :: _, [] => false
  | a :: as, b :: bs => a == b && isPreL as bs

/-- Go strings.HasPrefix. -/
def goHasPre (s pre : String) : Bool :=
  isPreL pre.data s.data

/-- Go strings.TrimPrefix. -/
def goTrimPre (s pre : String) : String :=
  if goHasPre s pre then s.drop pre.length else s

/-- Go strings.Contains (substring occurrence). -/
def containsL : List Char → List Char → Bool
  | s, pat =>
    match s with
    | [] => pat.isEmpty
    | _ :: rest => isPreL pat s || containsL rest pat

/-- Go strings.Contains on strings. -/
def goContains (s pat : String) : Bool :=
  containsL s.data pat.data

/-- Splitting around each leftmost non-overlapping occurrence of a
nonempty separator; the fuel starts at the string length, which bounds
the number of steps. -/
def splitOnL (sep : List Char) : Nat → List Char → List (List Char)
  | _, [] => [[]]
  | 0, s => [s]
  | fuel + 1, c :: rest =>
    if isPreL sep (c :: rest) then
      [] :: splitOnL sep fuel ((c :: rest).drop sep.length)
    else
      match splitOnL sep fuel rest with
      | [] => [[c]]
      | hd :: tl => (c :: hd) :: tl

/-- Go strings.Split: with a nonempty separator, split around each
occurrence; with an empty separator, split into single characters. -/
def goSplit (s sep : String) : List String :=
  if sep.data.isEmpty then
    s.data.map (fun c => String.mk [c])
  else
    (splitOnL sep.data s.data.length s.data).map (fun l => String.mk l)

/-- Go white space test for TrimSpace, on the ASCII white space the
program's inputs contain. -/
def isSpaceGo (c : Char) : Bool :=
  c == ' ' || c == '\t' || c == '\n' || c == '\r' || c == Char.ofNat 11 || c == Char.ofNat 12

/-- Go strings.TrimSpace. -/
def goTrim (s : String) : String :=
  String.mk (((s.data.dropWhile isSpaceGo).reverse.dropWhile isSpaceGo).reverse)

/-- Go strings.Join. -/
def goJoin (parts : List String) (sep : String) : String :=
  String.intercalate sep parts

/-- Go strings.Split(s, ".") final element: the last dot-separated
segment.  The split result is never empty, so the default is unused. -/
def lastSeg (s : String) : String :=
  ((goSplit s ".").getLast?).getD ""

example : goSplit "a.b" "." = ["a", "b"] := rfl
example : goSplit "abc" "." = ["abc"] := rfl
example : lastSeg "pkg.sub" = "sub" := rfl
example : goHasPre "jsonlang.math.add" "jsonlang." = true := rfl
example : goTrim " function.args " = "function.args" := rfl

/-- Decimal digit list to the natural number it denotes. -/
def digitsVal (l : List Char) : Nat :=
  l.foldl (fun a c => a * 10 + (c.toNat - 48)) 0

/-- Modelled from the spec: strconv.ParseFloat (Go standard library, an
external collaborator) restricted to plain decimal literals: optional
sign, digits with optional fraction part, optional decimal exponent.
Special float inputs (Inf, NaN, hex floats, digit-group underscores) are
outside the strings these properties evaluate. -/
def parseFloatQ (s : String) : Option ℚ :=
  let cs := s.data
  let signed : ℚ × List Char :=
    match cs with
    | '+' :: r => (1, r)
    | '-' :: r => (-1, r)
    | _ => (1, cs)
  let sgn := signed.1
  let body := signed.2
  let intPart := body.takeWhile Char.isDigit
  let rest1 := body.dropWhile Char.isDigit
  let fraced : List Char × List Char :=
    match rest1 with
    | '.' :: r => (r.takeWhile Char.isDigit, r.dropWhile Char.isDigit)
    | _ => ([], rest1)
  let fracPart := fraced.1
  let rest2 := fraced.2
  if intPart.isEmpty && fracPart.isEmpty then none
  else
    let mant : ℚ := (digitsVal intPart : ℚ) +
      (digitsVal fracPart : ℚ) / ((10 : ℚ) ^ fracPart.length)
    match rest2 with
    | [] => some (sgn * mant)
    | e :: r =>
      if e == 'e' || e == 'E' then
        let esigned : Int × List Char :=
          match r with
          | '+' :: r2 => (1, r2)
          | '-' :: r2 => (-1, r2)
          | _ => (1, r)
        let eDigits := esigned.2.takeWhile Char.isDigit
        let eRest := esigned.2.dropWhile Char.isDigit
        if eDigits.isEmpty || !eRest.isEmpty then none
        else some (sgn * mant * (10 : ℚ) ^ (esigned.1 * (digitsVal eDigits : Int)))
      else none

/-- Fractional decimal digits of r/d by long division, stopping when the
remainder reaches zero.  The fuel bounds the digit count; every float64
has a terminating decimal expansion well inside it. -/
def fracDigitChars : Nat → Nat → Nat → List Char
  | 0, _, _ => []
  | _ + 1, 0, _ => []
  | fuel + 1, r, d =>
    let r10 := r * 10
    Char.ofNat (48 + r10 / d) :: fracDigitChars fuel (r10 % d) d

/-- Modelled from the spec: strconv.FormatFloat(v, 'f', -1, 64) (Go
standard library) prints the number with the minimal decimal digits and
no exponent.  On the terminating-decimal rationals that stand for float64
values this is the plain minimal decimal form produced here; integers get
no decimal point. -/
def formatQ (q : ℚ) : String :=
  let sgn := if q < 0 then "-" else ""
  let n := q.num.natAbs
  let d := q.den
  let ip := n / d
  let fp := n % d
  if fp = 0 then sgn ++ Nat.repr ip
  else sgn ++ Nat.repr ip ++ "." ++ String.mk (fracDigitChars 1200 fp d)

/-- Go int(f) truncation of a float64 toward zero; Lean Int division also
truncates toward zero. -/
def goInt (q : ℚ) : Int :=
  q.num / (q.den : Int)

/-- Source toString (go_backend.go lines 845-860): string passthrough,
float64 via FormatFloat with minimal digits, int via Itoa, bool via
FormatBool, anything else via the fmt default print form (modelled for
the variants the program creates: nil prints "<nil>", a slice prints its
bracketed elements, an error prints its message).  This auxiliary prints
one element inside the bracketed slice form; the exact nested form is
implementation-defined (spec section 4.5) and no verified property
depends on it. -/
def toStringShallow : GoVal → String
  | vstr s => s
  | vnum q => formatQ q
  | vint n => Int.repr n
  | vbool b => if b then "true" else "false"
  | vnull => "<nil>"
  | vlist _ => "[...]"
  | vobj _ => "map"
  | verr msg => msg

/-- Source toString main dispatch; see the preceding comment. -/
def toStringV : GoVal → String
  | vstr s => s
  | vnum q => formatQ q
  | vint n => Int.repr n
  | vbool b => if b then "true" else "false"
  | vlist xs => "[" ++ String.intercalate " " (xs.map toStringShallow) ++ "]"
  | vnull => "<nil>"
  | vobj _ => "map"
  | verr msg => msg

/-- Source toNumber (lines 862-881): float64 passthrough, int widened,
string parsed with ParseFloat and 0.0 on failure, bool to 1.0/0.0,
anything else 0.0. -/
def toNumberV : GoVal → ℚ
  | vnum q => q
  | vint n => (n : ℚ)
  | vstr s => (parseFloatQ s).getD 0
  | vbool b => if b then 1 else 0
  | _ => 0

/-- Source toBoolean (lines 883-896): bool passthrough; a string is true
exactly for "true", "1", "yes", "on"; a number is true iff nonzero; any
other value is true iff it is not nil. -/
def toBooleanV : GoVal → Bool
  | vbool b => b
  | vstr s => s == "true" || s == "1" || s == "yes" || s == "on"
  | vnum q => q != 0
  | vint n => n != 0
  | vnull => false
  | _ => true

example : toNumberV (vstr "3.5") = (35 : ℚ) / 10 := by
  simp [toNumberV, parseFloatQ, digitsVal]
  norm_num
example : toNumberV (vstr "abc") = 0 := rfl
example : toStringV (vnum 3) = "3" := by
  norm_num [toStringV, formatQ]
  decide
example : toBooleanV (vstr "no") = false := rfl

namespace GoBackend

/-! The native operations of the Go backend (go_backend.go lines
381-842), one definition per source method, acting on the raw argument
list exactly as the variadic Go functions do.  Operations whose result
comes from the outside world (stdin, the real file system, the clock,
the random source, process exit) are marked below; only their returned
value shape is represented and no verified property touches them. -/

/-- Lines 381-384: prints to stdout (external effect) and returns nil. -/
def println (_args : List GoVal) : GoVal := vnull

/-- Lines 386-389: prints to stdout (external effect) and returns nil. -/
def print (_args : List GoVal) : GoVal := vnull

/-- Lines 391-418: formats and prints (external effect); returns nil on
every path. -/
def printf (_args : List GoVal) : GoVal := vnull

/-- Lines 420-427: reads a line from stdin (external input, modelled as
empty) and returns it trimmed. -/
def input (_args : List GoVal) : GoVal := vstr ""

/-- Lines 429-439: reads a real file (external input).  Modelled by the
missing-file branch, which returns the error message as a plain string. -/
def readFile : List GoVal → GoVal
  | [] => vstr ""
  | a :: _ => vstr ("错误: 无法读取文件 '" ++ toStringV a ++ "'")

/-- Lines 441-452: writes a real file (external effect); returns false on
short argument lists, and the success boolean otherwise (modelled as the
success branch). -/
def writeFile (args : List GoVal) : GoVal :=
  if args.length < 2 then vbool false else vbool true

/-- Lines 454-461. -/
def add (args : List GoVal) : GoVal :=
  if args.length < 2 then vnum 0
  else vnum (toNumberV (args.getD 0 vnull) + toNumberV (args.getD 1 vnull))

/-- Lines 463-470. -/
def subtract (args : List GoVal) : GoVal :=
  if args.length < 2 then vnum 0
  else vnum (toNumberV (args.getD 0 vnull) - toNumberV (args.getD 1 vnull))

/-- Lines 472-479. -/
def multiply (args : List GoVal) : GoVal :=
  if args.length < 2 then vnum 0
  else vnum (toNumberV (args.getD 0 vnull) * toNumberV (args.getD 1 vnull))

/-- Lines 481-491: fewer than two arguments gives 0.0, a zero divisor
gives an error value, otherwise the quotient (exact here; IEEE rounding
of the quotient is immaterial to the verified properties). -/
def divide (args : List GoVal) : GoVal :=
  if args.length < 2 then vnum 0
  else
    let a := toNumberV (args.getD 0 vnull)
    let b := toNumberV (args.getD 1 vnull)
    if b = 0 then verr "错误: 除数不能为零"
    else vnum (a / b)

/-- Lines 493-500: math.Pow, exact for integer exponents; a fractional
exponent yields an irrational float outside the ℚ model (modelled as 0
there; no verified property evaluates it). -/
def power (args : List GoVal) : GoVal :=
  if args.length < 2 then vnum 0
  else
    let base := toNumberV (args.getD 0 vnull)
    let exp := toNumberV (args.getD 1 vnull)
    if exp.den = 1 then vnum (base ^ exp.num) else vnum 0

/-- Lines 502-511: no argument gives 0.0 and a negative radicand gives an
error value; the nonnegative branch calls math.Sqrt, whose float value is
irrational in general and not representable in the ℚ model (modelled as
0; the verified property concerns only the error branch). -/
def sqrt (args : List GoVal) : GoVal :=
  match args with
  | [] => vnum 0
  | a :: _ =>
    let x := toNumberV a
    if x < 0 then verr "错误: 不能计算负数的平方根"
    else vnum 0

/-- Lines 513-519. -/
def absOp : List GoVal → GoVal
  | [] => vnum 0
  | a :: _ =>
    let x := toNumberV a
    vnum (if x < 0 then -x else x)

/-- Lines 521-527. -/
def floor : List GoVal → GoVal
  | [] => vnum 0
  | a :: _ => vnum ((⌊toNumberV a⌋ : ℤ) : ℚ)

/-- Lines 529-535. -/
def ceil : List GoVal → GoVal
  | [] => vnum 0
  | a :: _ => vnum ((⌈toNumberV a⌉ : ℤ) : ℚ)

/-- Lines 537-543: math.Round rounds half away from zero. -/
def round : List GoVal → GoVal
  | [] => vnum 0
  | a :: _ =>
    let x := toNumberV a
    vnum (if x < 0 then -((⌊-x + 1/2⌋ : ℤ) : ℚ) else ((⌊x + 1/2⌋ : ℤ) : ℚ))

/-- Lines 545-551. -/
def concat (args : List GoVal) : GoVal :=
  vstr (args.foldl (fun acc v => acc ++ toStringV v) "")

/-- Lines 553-558: Go len of the string form, in UTF-8 bytes. -/
def length : List GoVal → GoVal
  | [] => vint 0
  | a :: _ => vint ((toStringV a).utf8ByteSize)

/-- Lines 560-580: character positions model Go's byte positions, which
agree on the ASCII strings the program handles; a reversed range, which
panics in Go, is outside the verified properties and yields "". -/
def substring (args : List GoVal) : GoVal :=
  if args.length < 2 then vstr ""
  else
    let s := (toStringV (args.getD 0 vnull)).data
    let start0 := goInt (toNumberV (args.getD 1 vnull))
    let start := if start0 < 0 then 0 else start0.toNat
    if s.length ≤ start then vstr ""
    else if 2 < args.length then
      let e0 := goInt (toNumberV (args.getD 2 vnull))
      let e := if (s.length : Int) < e0 then s.length else e0.toNat
      vstr (String.mk ((s.drop start).take (e - start)))
    else vstr (String.mk (s.drop start))

/-- Lines 582-587: strings.ToUpper, modelled characterwise (agrees on
ASCII). -/
def toUpper : List GoVal → GoVal
  | [] => vstr ""
  | a :: _ => vstr (String.mk ((toStringV a).data.map Char.toUpper))

/-- Lines 589-594. -/
def toLower : List GoVal → GoVal
  | [] => vstr ""
  | a :: _ => vstr (String.mk ((toStringV a).data.map Char.toLower))

/-- Lines 596-601. -/
def trim : List GoVal → GoVal
  | [] => vstr ""
  | a :: _ => vstr (goTrim (toStringV a))

/-- Lines 603-618: default delimiter is one space. -/
def split (args : List GoVal) : GoVal :=
  match args with
  | [] => vlist []
  | a :: rest =>
    let s := toStringV a
    let delim := match rest with
      | [] => " "
      | b :: _ => toStringV b
    vlist ((goSplit s delim).map (fun part => vstr part))

/-- Lines 620-635. -/
def join (args : List GoVal) : GoVal :=
  if args.length < 2 then vstr ""
  else match args.getD 0 vnull with
    | vlist xs => vstr (goJoin (xs.map toStringV) (toStringV (args.getD 1 vnull)))
    | _ => verr "错误: 第一个参数必须是数组"

/-- Lines 637-639. -/
def arrayCreate (args : List GoVal) : GoVal :=
  vlist args

/-- Lines 641-650. -/
def arrayPush (args : List GoVal) : GoVal :=
  if args.length < 2 then vlist []
  else match args.getD 0 vnull with
    | vlist xs => vlist (xs ++ [args.getD 1 vnull])
    | _ => verr "错误: 第一个参数必须是数组"

/-- Lines 652-665: returns the last element and does not shorten the
slice. -/
def arrayPop : List GoVal → GoVal
  | [] => vnull
  | a :: _ =>
    match a with
    | vlist xs =>
      if xs.isEmpty then verr "错误: 数组为空"
      else (xs.getLast?).getD vnull
    | _ => verr "错误: 参数必须是数组"

/-- Lines 667-680. -/
def arrayGet (args : List GoVal) : GoVal :=
  if args.length < 2 then vnull
  else match args.getD 0 vnull with
    | vlist xs =>
      let index := goInt (toNumberV (args.getD 1 vnull))
      if index < 0 || (xs.length : Int) ≤ index then verr "错误: 数组索引越界"
      else xs.getD index.toNat vnull
    | _ => verr "错误: 第一个参数必须是数组"

/-- Lines 682-696: writes the slot and returns the array (in-place slice
aliasing is outside the value-level model). -/
def arraySet (args : List GoVal) : GoVal :=
  if args.length < 3 then vnull
  else match args.getD 0 vnull with
    | vlist xs =>
      let index := goInt (toNumberV (args.getD 1 vnull))
      if index < 0 || (xs.length : Int) ≤ index then verr "错误: 数组索引越界"
      else vlist (xs.set index.toNat (args.getD 2 vnull))
    | _ => verr "错误: 第一个参数必须是数组"

/-- Lines 698-707. -/
def arrayLength : List GoVal → GoVal
  | [] => vint 0
  | a :: _ =>
    match a with
    | vlist xs => vint (xs.length)
    | _ => verr "错误: 参数必须是数组"

/-- Lines 709-722: copies the slice and returns the copy without any
reordering. -/
def arraySort : List GoVal → GoVal
  | [] => vlist []
  | a :: _ =>
    match a with
    | vlist xs => vlist xs
    | _ => verr "错误: 第一个参数必须是数组"

/-- Lines 724-738. -/
def arrayReverse : List GoVal → GoVal
  | [] => vlist []
  | a :: _ =>
    match a with
    | vlist xs => vlist xs.reverse
    | _ => verr "错误: 参数必须是数组"

/-- Lines 740-747: sleeps (external effect) and returns nil on every
path. -/
def sleep (_args : List GoVal) : GoVal := vnull

/-- Lines 749-752: external random source; only the returned shape is
modelled. -/
def random (_args : List GoVal) : GoVal := vnum 0

/-- Lines 754-762: fewer than two arguments gives 0; otherwise an
external random integer in the requested range (modelled by its lower
bound). -/
def randomInt (args : List GoVal) : GoVal :=
  if args.length < 2 then vint 0
  else vint (goInt (toNumberV (args.getD 0 vnull)))

/-- Lines 764-766: the external clock, modelled only by its shape. -/
def timeNow (_args : List GoVal) : GoVal := vnum 0

/-- Lines 768-775: halts the process (not representable in a value-level
model); the nil it would formally return stands in. -/
def exit (_args : List GoVal) : GoVal := vnull

/-- Lines 777-782: gb.toString. -/
def toStringB : List GoVal → GoVal
  | [] => vstr ""
  | a :: _ => vstr (toStringV a)

/-- Lines 784-789: gb.toNumber. -/
def toNumberB : List GoVal → GoVal
  | [] => vnum 0
  | a :: _ => vnum (toNumberV a)

/-- Lines 791-796: gb.toBoolean. -/
def toBooleanB : List GoVal → GoVal
  | [] => vbool false
  | a :: _ => vbool (toBooleanV a)

/-- Lines 798-810. -/
def isEmpty : List GoVal → GoVal
  | [] => vbool true
  | a :: _ =>
    match a with
    | vstr s => vbool ((goTrim s).length == 0)
    | vlist xs => vbool xs.isEmpty
    | vnull => vbool true
    | _ => vbool false

/-- Lines 812-818. -/
def isNumber : List GoVal → GoVal
  | [] => vbool false
  | a :: _ => vbool ((parseFloatQ (toStringV a)).isSome)

/-- Lines 820-826. -/
def isString : List GoVal → GoVal
  | [] => vbool false
  | a :: _ => vbool (match a with | vstr _ => true | _ => false)

/-- Lines 828-834. -/
def isArray : List GoVal → GoVal
  | [] => vbool false
  | a :: _ => vbool (match a with | vlist _ => true | _ => false)

/-- Lines 836-842. -/
def isBoolean : List GoVal → GoVal
  | [] => vbool false
  | a :: _ => vbool (match a with | vbool _ => true | _ => false)

/-- The registry gb.functions as populated with the canonical operation
names.  Modelled from the spec for its contents: the name-to-builtin
binding below is registerDefaultFunctions (lines 222-281); the descriptor
path reads stdlib.go.json, which is not among the sources, and binds the
same names to the same implementations per spec section 4.5. -/
def registry : List (String × (List GoVal → GoVal)) :=
  [("println", println), ("print", print), ("printf", printf),
   ("input", input), ("read_file", readFile), ("write_file", writeFile),
   ("add", add), ("subtract", subtract), ("multiply", multiply),
   ("divide", divide), ("power", power), ("sqrt", sqrt), ("abs", absOp),
   ("floor", floor), ("ceil", ceil), ("round", round),
   ("concat", concat), ("length", length), ("substring", substring),
   ("to_upper", toUpper), ("to_lower", toLower), ("trim", trim),
   ("split", split), ("join", join),
   ("array_create", arrayCreate), ("array_push", arrayPush),
   ("array_pop", arrayPop), ("array_get", arrayGet),
   ("array_set", arraySet), ("array_length", arrayLength),
   ("array_sort", arraySort), ("array_reverse", arrayReverse),
   ("sleep", sleep), ("random", random), ("random_int", randomInt),
   ("time_now", timeNow), ("exit", exit),
   ("to_string", toStringB), ("to_number", toNumberB),
   ("to_boolean", toBooleanB),
   ("is_empty", isEmpty), ("is_number", isNumber),
   ("is_string", isString), ("is_array", isArray),
   ("is_boolean", isBoolean)]

/-- GoBackend.ExecuteFunction (lines 192-197): look the operation up in
the registry and run it on the raw argument list, or return an error
value for an unregistered name. -/
def ExecuteFunction (funcName : String) (args : List GoVal) : GoVal :=
  match (registry.find? (fun kv => kv.1 == funcName)).map (fun kv => kv.2) with
  | some f => f args
  | none => verr ("函数 '" ++ funcName ++ "' 不存在")

end GoBackend

example : GoBackend.ExecuteFunction "add" [vnum 2, vnum 3] = vnum 5 := by
  have h : GoBackend.ExecuteFunction "add" [vnum 2, vnum 3] = vnum (2 + 3) := rfl
  rw [h]
  norm_num
example : GoBackend.ExecuteFunction "divide" [vnum 10, vnum 0] = verr "错误: 除数不能为零" := rfl
example : isErrV (GoBackend.ExecuteFunction "array_get" [vlist [vnum 1, vnum 2, vnum 3], vnum 5]) = true := rfl

/-- Lookup in a Go string-keyed map represented as an association list. -/
def alLookup {α : Type} (m : List (String × α)) (k : String) : Option α :=
  (m.find? (fun kv => kv.1 == k)).map (fun kv => kv.2)

/-- Write to a Go string-keyed map: replace in place or append. -/
def alSet {α : Type} (m : List (String × α)) (k : String) (v : α) : List (String × α) :=
  if m.any (fun kv => kv.1 == k) then
    m.map (fun kv => if kv.1 == k then (k, v) else kv)
  else
    m ++ [(k, v)]

/-- JSONProgram (lines 17-23): metadata, imports, functions, modifiers,
and the per-instance cache of loaded sub-modules.  The cache holds full
programs, making this a nested inductive type. -/
inductive Program : Type where
  | mk (metadata : Obj) (imports : List (String × String))
       (functions : List (String × Obj)) (modifiersL : List Obj)
       (loadedModules : List (String × Program)) : Program

def Program.metadata : Program → Obj
  | .mk md _ _ _ _ => md

def Program.imports : Program → List (String × String)
  | .mk _ im _ _ _ => im

def Program.functions : Program → List (String × Obj)
  | .mk _ _ fns _ _ => fns

def Program.modifiersL : Program → List Obj
  | .mk _ _ _ mods _ => mods

def Program.loadedModules : Program → List (String × Program)
  | .mk _ _ _ _ lm => lm

/-- Replacement of the module cache, the one field the interpreter
mutates. -/
def Program.withLoaded : Program → List (String × Program) → Program
  | .mk md im fns mods _, lm => .mk md im fns mods lm

/-- HasFunction (lines 84-87). -/
def Program.HasFunction (p : Program) (name : String) : Bool :=
  (alLookup p.functions name).isSome

/-- getMap (lines 37-42). -/
def getMapF (data : Obj) (key : String) : Obj :=
  match objLookup data key with
  | some (vobj m) => m
  | _ => []

/-- getStringMap (lines 44-55): keeps only the entries whose value is a
string. -/
def getStringMapF (data : Obj) (key : String) : List (String × String) :=
  match objLookup data key with
  | some (vobj m) =>
    m.filterMap (fun kv => match kv.2 with
      | vstr s => some (kv.1, s)
      | _ => none)
  | _ => []

/-- getFunctionMap (lines 57-68): keeps only the entries whose value is
an object. -/
def getFunctionMapF (data : Obj) (key : String) : List (String × Obj) :=
  match objLookup data key with
  | some (vobj m) =>
    m.filterMap (fun kv => match kv.2 with
      | vobj fd => some (kv.1, fd)
      | _ => none)
  | _ => []

/-- getModifiers (lines 70-81): keeps list position for every element,
with a non-object element leaving a nil (here empty) map in its slot. -/
def getModifiersF (data : Obj) (key : String) : List Obj :=
  match objLookup data key with
  | some (vlist l) =>
    l.map (fun v => match v with
      | vobj m => m
      | _ => ([] : Obj))
  | _ => []

/-- NewJSONProgram (lines 26-34): builds a Program from parsed data with
an empty module cache. -/
def NewJSONProgram (data : Obj) : Program :=
  Program.mk (getMapF data "metadata") (getStringMapF data "imports")
    (getFunctionMapF data "functions") (getModifiersF data "modifiers") []

/-- The file system visible to module loading: a path is present iff the
file exists, and maps to the parsed object of its contents, or to none if
its contents are not valid JSON. -/
abbrev Fs := List (String × Option Obj)

/-- Go os.Stat success: the path exists. -/
def fsStat (fs : Fs) (path : String) : Bool :=
  fs.any (fun kv => kv.1 == path)

/-- Candidate files tried by LoadModule (lines 103-109), in order. -/
def candidatePaths (modulePath : String) : List String :=
  [modulePath ++ ".json", modulePath ++ "",
   lastSeg modulePath ++ ".json", lastSeg modulePath ++ ""]

/-- JSONProgram.LoadModule (lines 96-141), over an explicit cache (the
receiver's LoadedModules field) and file system.  Returns the loaded (or
cached) module or the error message, the updated cache, and the number of
file reads performed. -/
def LoadModule (fs : Fs) (cache : List (String × Program)) (modulePath : String) :
    Except String Program × List (String × Program) × Nat :=
  match alLookup cache modulePath with
  | some module => (Except.ok module, cache, 0)
  | none =>
    let moduleFile := ((candidatePaths modulePath).find? (fun p => fsStat fs p)).getD ""
    if moduleFile == "" then
      (Except.error ("找不到模块文件: " ++ modulePath), cache, 0)
    else
      match alLookup fs moduleFile with
      | some (some moduleData) =>
        let moduleProgram := NewJSONProgram moduleData
        (Except.ok moduleProgram, alSet cache modulePath moduleProgram, 1)
      | some none =>
        (Except.error "模块文件JSON格式错误", cache, 1)
      | none =>
        (Except.error ("无法读取模块文件 '" ++ modulePath ++ "'"), cache, 1)

/-- evaluateCondition (lines 985-1009): the only recognized grammar is a
two-part split on "==" whose trimmed left side is one of the four known
function paths, meaning "that field is absent"; everything else is
true. -/
def evaluateCondition (funcData : Obj) (condition : String) : Bool :=
  if goContains condition "undefined" then
    let parts := goSplit condition "=="
    if parts.length == 2 then
      let varName := goTrim (parts.getD 0 "")
      if varName == "function.args" then !(objLookup funcData "args").isSome
      else if varName == "function.return" then !(objLookup funcData "return").isSome
      else if varName == "function.modifiers" then !(objLookup funcData "modifiers").isSome
      else if varName == "function.visibility" then !(objLookup funcData "visibility").isSome
      else true
    else true
  else true

/-- executeModifierAction (lines 1012-1032): an assignment whose target
is rooted at "function." writes the second dot-segment of the target as a
field; everything else is a no-op. -/
def executeModifierAction (funcData : Obj) (action : Obj) : Obj :=
  match objLookup action "type" with
  | some (vstr actionType) =>
    match objLookup action "target" with
    | some (vstr target) =>
      let value := (objLookup action "value").getD vnull
      if actionType == "assignment" then
        if goHasPre target "function." then
          objSet funcData ((goSplit target ".").getD 1 "") value
        else funcData
      else funcData
    | _ => funcData
  | _ => funcData

/-- The modifier-definition search predicate of applyModifier (lines
955-960): the definition's "name" entry is a string equal to the wanted
name. -/
def modNamePred (modifierName : String) (mod : Obj) : Bool :=
  match objLookup mod "name" with
  | some (vstr name) => name == modifierName
  | _ => false

/-- applyModifier (lines 952-982): find the first modifier definition of
that name (a missing one logs and is skipped); read the condition from
the key "condiction" as the source does, treating a missing or non-string
entry there as passing; on a passing condition fold the modifier's
actions over the function definition. -/
def applyModifier (modifiersL : List Obj) (funcData : Obj) (modifierName : String) : Obj :=
  match modifiersL.find? (modNamePred modifierName) with
  | none => funcData
  | some modifier =>
    let condOk : Bool :=
      match objLookup modifier "condiction" with
      | some (vstr condition) => evaluateCondition funcData condition
      | _ => true
    if !condOk then funcData
    else
      match objLookup modifier "actions" with
      | some (vlist actions) =>
        actions.foldl (fun fd action =>
          match action with
          | vobj actionMap => executeModifierAction fd actionMap
          | _ => fd) funcData
      | _ => funcData

/-- One function's pass of applyModifiers (lines 938-947): the modifier
names are read once from the function's own "modifiers" list and applied
in listed order; non-string entries are skipped. -/
def applyModsToFunc (modifiersL : List Obj) (funcData : Obj) : Obj :=
  match objLookup funcData "modifiers" with
  | some (vlist names) =>
    names.foldl (fun fd nm =>
      match nm with
      | vstr s => applyModifier modifiersL fd s
      | _ => fd) funcData
  | _ => funcData

/-- applyModifiers (lines 937-949): every function is rewritten
independently against the program's modifier definitions. -/
def applyModifiers (p : Program) : Program :=
  Program.mk p.metadata p.imports
    (p.functions.map (fun kv => (kv.1, applyModsToFunc p.modifiersL kv.2)))
    p.modifiersL p.loadedModules

/-- The guard under which executeFunction's loop (lines 1049-1062) runs
executeFunctionCall for an element of the actions list: the element is an
object whose "type" entry is the string "function_call". -/
def isFunctionCallA (a : GoVal) : Bool :=
  match a with
  | vobj m =>
    match objLookup m "type" with
    | some (vstr t) => t == "function_call"
    | _ => false
  | _ => false

/-- The action loop of executeFunction (lines 1047-1078), parameterized
by the function-call handler so the loop is structurally recursive: a
function_call action updates the running result and threads the program
(whose module cache the call may grow); every other element, including
the recognized no-effect tags and malformed elements, is skipped. -/
def runActs (call : Program → Obj → GoVal × Program) :
    List GoVal → Program → GoVal → GoVal × Program
  | [], p, result => (result, p)
  | action :: rest, p, result =>
    if isFunctionCallA action then
      match action with
      | vobj actionMap =>
        let vp := call p actionMap
        runActs call rest vp.2 vp.1
      | _ => runActs call rest p result
    else runActs call rest p result

/-- executeFunction (lines 1035-1079) with its recursion abstracted into
the handler: missing function and missing actions list are error values;
otherwise the action loop runs from a nil running result. -/
def executeFunctionWith (call : Program → Obj → GoVal × Program)
    (p : Program) (funcName : String) (_args : List GoVal) : GoVal × Program :=
  match alLookup p.functions funcName with
  | none => (verr ("函数 '" ++ funcName ++ "' 未定义"), p)
  | some funcData =>
    match objLookup funcData "actions" with
    | some (vlist actions) => runActs call actions p vnull
    | _ => (verr ("函数 '" ++ funcName ++ "' 缺少actions字段"), p)

/-- Argument evaluation of executeFunctionCall (lines 1093-1124): a
typed descriptor of String/Number/Boolean kind (optionally written with
an "imports." type namespace) unwraps to its scalar when the value slot
matches the kind and otherwise leaves the Go zero value nil; every other
shape passes through unchanged. -/
def evalArg (argData : GoVal) : GoVal :=
  match argData with
  | vobj argMap =>
    match objLookup argMap "type" with
    | some (vstr argType) =>
      if argType == "String" || argType == "imports.String" then
        match objLookup argMap "value" with
        | some (vstr s) => vstr s
        | _ => vnull
      else if argType == "Number" || argType == "imports.Number" then
        match objLookup argMap "value" with
        | some (vnum q) => vnum q
        | _ => vnull
      else if argType == "Boolean" || argType == "imports.Boolean" then
        match objLookup argMap "value" with
        | some (vbool b) => vbool b
        | _ => vnull
      else argData
    | _ => argData
  | _ => argData

/-- The raw argument list of a function_call action (lines 1088-1091): a
missing or non-list "args" entry is an empty list. -/
def callArgs (action : Obj) : List GoVal :=
  match objLookup action "args" with
  | some (vlist l) => l
  | _ => []

/-- The evaluated argument list of a function_call action. -/
def evalArgs (action : Obj) : List GoVal :=
  (callArgs action).map evalArg

/-- The module path of a dotted reference: everything before the last
dot, re-joined with dots (lines 1136-1138). -/
def modPath (ref : String) : String :=
  goJoin ((goSplit ref ".").dropLast) "."

/-- The backend tail of the import-reference interpretation (lines
1156-1167 and identically 1207-1218): a jsonlang-prefixed reference is
stripped and reduced to its final dot-segment; any other reference
reaching this point is reduced to its final dot-segment directly. -/
def dispatchBackendRef (p : Program) (ref : String) (args : List GoVal) :
    GoVal × Program :=
  if goHasPre ref "jsonlang." then
    let backendFunc := goTrimPre ref "jsonlang."
    let backendFunc2 := if goContains backendFunc "." then lastSeg backendFunc else backendFunc
    (GoBackend.ExecuteFunction backendFunc2 args, p)
  else
    (GoBackend.ExecuteFunction (lastSeg ref) args, p)

/-- The import-reference interpretation shared verbatim by the two code
paths of executeFunctionCall (lines 1134-1167 for a direct import hit and
lines 1185-1218 for the reverse-scanned imports. prefix path): a dotted
reference without the jsonlang. namespace is split at its last dot, the
prefix is loaded as a module and the suffix is executed there (with
module-load failure and a missing module function as error values, and
the module's state written back into the caller's cache); otherwise the
reference goes to the backend registry. -/
def dispatchRefWith (call : Program → Obj → GoVal × Program) (fs : Fs)
    (p : Program) (ref : String) (args : List GoVal) : GoVal × Program :=
  if goContains ref "." && !goHasPre ref "jsonlang." then
    if 2 ≤ (goSplit ref ".").length then
      let modulePath := modPath ref
      let funcName2 := lastSeg ref
      match LoadModule fs p.loadedModules modulePath with
      | (Except.error e, cache2, _) =>
        (verr ("导入模块失败: " ++ e), p.withLoaded cache2)
      | (Except.ok moduleProgram, cache2, _) =>
        let p2 := p.withLoaded cache2
        if moduleProgram.HasFunction funcName2 then
          let vm := executeFunctionWith call moduleProgram funcName2 args
          (vm.1, p2.withLoaded (alSet p2.loadedModules modulePath vm.2))
        else
          (verr ("模块 '" ++ modulePath ++ "' 中没有函数 '" ++ funcName2 ++ "'"), p2)
    else dispatchBackendRef p ref args
  else dispatchBackendRef p ref args

/-- executeFunctionCall (lines 1082-1227), structurally recursive on a
fuel bound standing for the unbounded Go call stack: evaluate the
argument descriptors, then resolve in precedence order: a function of the
current program, a key of its imports map (interpreted by
dispatchRefWith), an imports.-prefixed name resolved by reverse-scanning
the imports map for an entry whose value is the bare name (the empty
string doubling as the not-found sentinel exactly as in the source), and
finally the backend registry. -/
def executeFunctionCall : Nat → Fs → Program → Obj → GoVal × Program
  | 0, _, p, _ => (verr "模型燃料耗尽", p)
  | fuel + 1, fs, p, action =>
    match objLookup action "function" with
    | some (vstr function) =>
      let args := evalArgs action
      if p.HasFunction function then
        executeFunctionWith (fun q m => executeFunctionCall fuel fs q m) p function args
      else
        match alLookup p.imports function with
        | some imports =>
          dispatchRefWith (fun q m => executeFunctionCall fuel fs q m) fs p imports args
        | none =>
          if goHasPre function "imports." then
            let funcName := goTrimPre function "imports."
            let importPath :=
              ((p.imports.find? (fun kv => kv.2 == funcName)).map (fun kv => kv.1)).getD ""
            if importPath == "" then
              (GoBackend.ExecuteFunction funcName args, p)
            else
              dispatchRefWith (fun q m => executeFunctionCall fuel fs q m) fs p importPath args
          else
            (GoBackend.ExecuteFunction function args, p)
    | _ => (verr "缺少function字段", p)

/-- The function-call handler at a given fuel, the closure threaded
through the action loop. -/
def callAt (fuel : Nat) (fs : Fs) : Program → Obj → GoVal × Program :=
  fun q m => executeFunctionCall fuel fs q m

/-- executeFunction at a given fuel: the source function with its
recursive calls going through executeFunctionCall at that fuel. -/
def executeFunction (fuel : Nat) (fs : Fs) (p : Program) (funcName : String)
    (args : List GoVal) : GoVal × Program :=
  executeFunctionWith (callAt fuel fs) p funcName args

/-- The shared import-reference interpretation at a given fuel. -/
def dispatchRef (fuel : Nat) (fs : Fs) (p : Program) (ref : String)
    (args : List GoVal) : GoVal × Program :=
  dispatchRefWith (callAt fuel fs) fs p ref args

/-- Whether the value is a Go slice. -/
def isListV : GoVal → Bool
  | vlist _ => true
  | _ => false

/-! General lemmas about the embedded operations, shared by the claim
theorems below. -/

theorem alLookup_map_val {α β : Type} (g : α → β) (l : List (String × α)) (k : String) :
    alLookup (l.map (fun kv => (kv.1, g kv.2))) k = (alLookup l k).map g := by
  induction l with
  | nil => rfl
  | cons kv rest ih =>
    by_cases h : kv.1 == k
    · simp [alLookup, List.find?_cons, h]
    · simp only [List.map_cons, alLookup, List.find?_cons, h] at ih ⊢
      exact ih

theorem objLookup_objSet_self (m : Obj) (k : String) (v : GoVal) :
    objLookup (objSet m k v) k = some v := by
  induction m with
  | nil => simp [objSet, objLookup]
  | cons kv rest ih =>
    by_cases hk : kv.1 == k
    · have hkp : kv.1 = k := by simpa using hk
      have hset : objSet (kv :: rest) k v =
          (k, v) :: rest.map (fun kv2 => if kv2.1 == k then (k, v) else kv2) := by
        simp [objSet, List.any_cons, hk, hkp]
      rw [hset]
      simp [objLookup, List.find?_cons]
    · have hk' : ¬(kv.1 = k) := by simpa using hk
      have h2 : objSet (kv :: rest) k v = kv :: objSet rest k v := by
        by_cases hr : rest.any (fun kv2 => kv2.1 == k)
        · simp [objSet, List.any_cons, hk, hk', hr]
        · simp [objSet, List.any_cons, hk, hk', hr]
      rw [h2]
      simpa [objLookup, List.find?_cons, hk] using ih

theorem runActs_skip (call : Program → Obj → GoVal × Program) (a : GoVal)
    (rest : List GoVal) (p : Program) (r : GoVal) (h : isFunctionCallA a = false) :
    runActs call (a :: rest) p r = runActs call rest p r := by
  simp [runActs, h]

theorem runActs_call_step (call : Program → Obj → GoVal × Program) (m : Obj)
    (rest : List GoVal) (p : Program) (r : GoVal)
    (h : isFunctionCallA (vobj m) = true) :
    runActs call (vobj m :: rest) p r =
      runActs call rest (call p m).2 (call p m).1 := by
  simp [runActs, h]

theorem runActs_no_calls (call : Program → Obj → GoVal × Program)
    (l : List GoVal) (p : Program) (r : GoVal)
    (h : ∀ b ∈ l, isFunctionCallA b = false) :
    runActs call l p r = (r, p) := by
  induction l generalizing p r with
  | nil => rfl
  | cons a rest ih =>
    rw [runActs_skip call a rest p r (h a (by simp))]
    exact ih p r (fun b hb => h b (by simp [hb]))

theorem runActs_append (call : Program → Obj → GoVal × Program)
    (l1 l2 : List GoVal) (p : Program) (r : GoVal) :
    runActs call (l1 ++ l2) p r =
      runActs call l2 (runActs call l1 p r).2 (runActs call l1 p r).1 := by
  induction l1 generalizing p r with
  | nil => rfl
  | cons a rest ih =>
    cases ha : isFunctionCallA a with
    | false =>
      rw [List.cons_append, runActs_skip call a _ p r ha, runActs_skip call a rest p r ha]
      exact ih p r
    | true =>
      cases a with
      | vobj m =>
        rw [List.cons_append, runActs_call_step call m _ p r ha,
          runActs_call_step call m rest p r ha]
        exact ih _ _
      | vnull => simp [isFunctionCallA] at ha
      | vstr s => simp [isFunctionCallA] at ha
      | vnum q => simp [isFunctionCallA] at ha
      | vint n => simp [isFunctionCallA] at ha
      | vbool b => simp [isFunctionCallA] at ha
      | vlist xs => simp [isFunctionCallA] at ha
      | verr e => simp [isFunctionCallA] at ha

theorem runActs_result_irrel (call : Program → Obj → GoVal × Program)
    (l : List GoVal) (p : Program) (v w : GoVal)
    (h : ∃ b ∈ l, isFunctionCallA b = true) :
    (runActs call l p v).1 = (runActs call l p w).1 := by
  induction l generalizing p v w with
  | nil => simp at h
  | cons a rest ih =>
    cases ha : isFunctionCallA a with
    | false =>
      rw [runActs_skip call a rest p v ha, runActs_skip call a rest p w ha]
      rcases h with ⟨b, hb, hcall⟩
      rcases List.mem_cons.mp hb with hb1 | hb2
      · rw [hb1] at hcall
        rw [hcall] at ha
        exact absurd ha (by simp)
      · exact ih p v w ⟨b, hb2, hcall⟩
    | true =>
      cases a with
      | vobj m =>
        rw [runActs_call_step call m rest p v ha, runActs_call_step call m rest p w ha]
      | vnull => simp [isFunctionCallA] at ha
      | vstr s => simp [isFunctionCallA] at ha
      | vnum q => simp [isFunctionCallA] at ha
      | vint n => simp [isFunctionCallA] at ha
      | vbool b => simp [isFunctionCallA] at ha
      | vlist xs => simp [isFunctionCallA] at ha
      | verr e => simp [isFunctionCallA] at ha

theorem splitOnL_of_not_contains (sep : List Char) :
    ∀ (fuel : Nat) (l : List Char), containsL l sep = false →
      splitOnL sep fuel l = [l] := by
  intro fuel
  induction fuel with
  | zero =>
    intro l _
    cases l with
    | nil => rfl
    | cons c rest => rfl
  | succ n ih =>
    intro l hl
    cases l with
    | nil => rfl
    | cons c rest =>
      rw [containsL] at hl
      have h1 : isPreL sep (c :: rest) = false := by
        cases h : isPreL sep (c :: rest) with
        | false => rfl
        | true => rw [h] at hl; simp at hl
      have h2 : containsL rest sep = false := by
        cases h : containsL rest sep with
        | false => rfl
        | true => rw [h] at hl; simp at hl
      rw [splitOnL, if_neg (by simp [h1]), ih rest h2]

theorem goSplit_of_not_contains (s : String) (h : goContains s "." = false) :
    goSplit s "." = [s] := by
  have hmk : String.mk s.data = s := by cases s; rfl
  have h2 : splitOnL ['.'] s.length s.data = [s.data] :=
    splitOnL_of_not_contains ['.'] s.length s.data h
  show List.map (fun l => String.mk l) (splitOnL ['.'] s.length s.data) = [s]
  rw [h2]
  simp [hmk]

theorem lastSeg_of_not_contains (s : String) (h : goContains s "." = false) :
    lastSeg s = s := by
  simp [lastSeg, goSplit_of_not_contains s h]

/-- C8: toNumber passes numbers through, parses a string as a float with
0.0 on failure (so "3.5" gives 3.5 and "abc" gives 0), maps true/false to
1.0/0.0, and gives 0.0 for any other value; toString passes strings
through, formats a number with minimal decimal digits so 3.0 prints as
"3", and maps booleans to "true"/"false"; toBoolean passes booleans
through, maps a string to true exactly for "true", "1", "yes", "on" (so
"no" gives false), maps a number to true iff nonzero, and otherwise
returns whether the value is non-nil. -/
theorem claim_C8_value_coercion :
    (∀ q : ℚ, toNumberV (vnum q) = q) ∧
    toNumberV (vstr "3.5") = 3.5 ∧
    toNumberV (vstr "abc") = 0 ∧
    toNumberV (vbool true) = 1 ∧ toNumberV (vbool false) = 0 ∧
    toNumberV vnull = 0 ∧ (∀ xs, toNumberV (vlist xs) = 0) ∧
    (∀ m, toNumberV (vobj m) = 0) ∧ (∀ e, toNumberV (verr e) = 0) ∧
    (∀ s, toStringV (vstr s) = s) ∧
    toStringV (vnum 3) = "3" ∧
    toStringV (vbool true) = "true" ∧ toStringV (vbool false) = "false" ∧
    (∀ b, toBooleanV (vbool b) = b) ∧
    (∀ s, toBooleanV (vstr s) = (s == "true" || s == "1" || s == "yes" || s == "on")) ∧
    toBooleanV (vstr "no") = false ∧
    (∀ q : ℚ, toBooleanV (vnum q) = true ↔ q ≠ 0) ∧
    toBooleanV vnull = false ∧ (∀ xs, toBooleanV (vlist xs) = true) ∧
    (∀ m, toBooleanV (vobj m) = true) ∧ (∀ e, toBooleanV (verr e) = true) := by
  refine ⟨fun q => rfl, ?_, rfl, rfl, rfl, rfl, fun xs => rfl, fun m => rfl,
    fun e => rfl, fun s => rfl, ?_, rfl, rfl, fun b => rfl, fun s => rfl, rfl,
    ?_, rfl, fun xs => rfl, fun m => rfl, fun e => rfl⟩
  · have h : toNumberV (vstr "3.5") = (35 : ℚ) / 10 := by
      simp [toNumberV, parseFloatQ, digitsVal]
      norm_num
    rw [h]
    norm_num
  · have h : toStringV (vnum 3) = formatQ 3 := rfl
    rw [h]
    norm_num [formatQ]
    decide
  · intro q
    simp [toBooleanV, bne_iff_ne]

/-- C9: array_sort on a list input returns a list with exactly the same
elements in exactly the same order (a copying identity with no
reordering); the in-place input slice is not touched, the result being a
fresh copy.  At the value level this is the identity proved here, for any
number of trailing arguments. -/
theorem claim_C9_array_sort_identity :
    ∀ (xs rest : List GoVal),
      GoBackend.ExecuteFunction "array_sort" (vlist xs :: rest) = vlist xs :=
  fun _ _ => rfl

/-- C10: array_pop on a non-empty list returns the last element of the
list and no shortened list (at the value level the element itself is the
whole result, so nothing is removed); on an empty list it returns an
error value; with no arguments it returns nil. -/
theorem claim_C10_array_pop :
    (∀ (xs : List GoVal) (x : GoVal),
      GoBackend.ExecuteFunction "array_pop" [vlist (xs ++ [x])] = x) ∧
    isErrV (GoBackend.ExecuteFunction "array_pop" [vlist []]) = true ∧
    GoBackend.ExecuteFunction "array_pop" [] = vnull := by
  refine ⟨?_, rfl, rfl⟩
  intro xs x
  have h : GoBackend.ExecuteFunction "array_pop" [vlist (xs ++ [x])] =
      GoBackend.arrayPop [vlist (xs ++ [x])] := rfl
  rw [h]
  simp [GoBackend.arrayPop, List.getLast?_concat]

/-- C7: backend edge policies.  divide with zero divisor is an error for
every first argument; sqrt of a negative number is an error; array_get
outside the interval from 0 inclusive to the length exclusive is an
error; a non-list where a list is required is an error; but an
insufficient argument count is a zero default, not an error (add with
fewer than two arguments gives 0.0); and add 2 3 gives 5. -/
theorem claim_C7_backend_edge_policies :
    (∀ a : GoVal, isErrV (GoBackend.ExecuteFunction "divide" [a, vnum 0]) = true) ∧
    (∀ x : ℚ, x < 0 → isErrV (GoBackend.ExecuteFunction "sqrt" [vnum x]) = true) ∧
    (∀ (xs : List GoVal) (i : Int), (i < 0 ∨ (xs.length : Int) ≤ i) →
      isErrV (GoBackend.ExecuteFunction "array_get" [vlist xs, vnum (i : ℚ)]) = true) ∧
    (∀ v w : GoVal, isListV v = false →
      isErrV (GoBackend.ExecuteFunction "array_get" [v, w]) = true) ∧
    (∀ args : List GoVal, args.length < 2 →
      GoBackend.ExecuteFunction "add" args = vnum 0) ∧
    GoBackend.ExecuteFunction "add" [vnum 2, vnum 3] = vnum 5 := by
  refine ⟨fun a => rfl, ?_, ?_, ?_, ?_, ?_⟩
  · intro x hx
    have h : GoBackend.ExecuteFunction "sqrt" [vnum x] = GoBackend.sqrt [vnum x] := rfl
    rw [h]
    simp [GoBackend.sqrt, toNumberV, hx, isErrV]
  · intro xs i hi
    have h : GoBackend.ExecuteFunction "array_get" [vlist xs, vnum (i : ℚ)] =
        GoBackend.arrayGet [vlist xs, vnum (i : ℚ)] := rfl
    rw [h]
    have hg : goInt ((i : ℚ)) = i := by
      simp [goInt, Rat.num_intCast, Rat.den_intCast]
    have hcond : (goInt (toNumberV (vnum (i : ℚ))) < 0 ||
        (xs.length : Int) ≤ goInt (toNumberV (vnum (i : ℚ)))) = true := by
      simp only [toNumberV, hg]
      rcases hi with hi | hi
      · simp [hi]
      · simp [hi]
    simp [GoBackend.arrayGet, hcond, isErrV]
  · intro v w hv
    cases v with
    | vlist xs => simp [isListV] at hv
    | vnull => rfl
    | vstr s => rfl
    | vnum q => rfl
    | vint n => rfl
    | vbool b => rfl
    | vobj m => rfl
    | verr e => rfl
  · intro args hlen
    match args with
    | [] => rfl
    | [a] => rfl
    | a :: b :: t =>
      simp only [List.length_cons] at hlen
      exact absurd hlen (by omega)
  · have h : GoBackend.ExecuteFunction "add" [vnum 2, vnum 3] = vnum (2 + 3) := rfl
    rw [h]
    norm_num

theorem fsStat_of_alLookup (fs : Fs) (pth : String) (x : Option Obj)
    (h : alLookup fs pth = some x) : fsStat fs pth = true := by
  induction fs with
  | nil => simp [alLookup] at h
  | cons kv rest ih =>
    by_cases hk : kv.1 == pth
    · simp [fsStat, List.any_cons, hk]
    · simp only [alLookup, List.find?_cons, hk] at h
      simp only [fsStat, List.any_cons, hk, Bool.false_or]
      exact ih h

theorem strEq_empty_false_of_ne (s : String) (h : s ≠ "") : (s == "") = false :=
  beq_eq_false_iff_ne.mpr h

theorem strEq_append_json_empty (s : String) : ((s ++ ".json") == "") = false := by
  apply beq_eq_false_iff_ne.mpr
  intro h
  have h2 : (s ++ ".json").data = "".data := congrArg String.data h
  simp [String.data_append] at h2

/-- C5: LoadModule first consults the cache and returns the cached
Program with no file read; on a miss it tries, in order, the reference
with ".json", the reference itself, the last dot-segment with ".json",
and the last dot-segment, the first existing file winning; no existing
candidate is a module-not-found error, an unparseable found file is a
parse error, and a parsed file becomes a Program stored in the cache
under the literal reference string. -/
theorem claim_C5_loadModule (fs : Fs) (cache : List (String × Program)) (ref : String) :
    (∀ m, alLookup cache ref = some m →
      LoadModule fs cache ref = (Except.ok m, cache, 0)) ∧
    (∀ data, alLookup cache ref = none →
      alLookup fs (ref ++ ".json") = some (some data) →
      LoadModule fs cache ref =
        (Except.ok (NewJSONProgram data), alSet cache ref (NewJSONProgram data), 1)) ∧
    (∀ data, alLookup cache ref = none → ref ≠ "" →
      fsStat fs (ref ++ ".json") = false →
      alLookup fs ref = some (some data) →
      LoadModule fs cache ref =
        (Except.ok (NewJSONProgram data), alSet cache ref (NewJSONProgram data), 1)) ∧
    (∀ data, alLookup cache ref = none →
      fsStat fs (ref ++ ".json") = false → fsStat fs ref = false →
      alLookup fs (lastSeg ref ++ ".json") = some (some data) →
      LoadModule fs cache ref =
        (Except.ok (NewJSONProgram data), alSet cache ref (NewJSONProgram data), 1)) ∧
    (∀ data, alLookup cache ref = none → lastSeg ref ≠ "" →
      fsStat fs (ref ++ ".json") = false → fsStat fs ref = false →
      fsStat fs (lastSeg ref ++ ".json") = false →
      alLookup fs (lastSeg ref) = some (some data) →
      LoadModule fs cache ref =
        (Except.ok (NewJSONProgram data), alSet cache ref (NewJSONProgram data), 1)) ∧
    (alLookup cache ref = none →
      fsStat fs (ref ++ ".json") = false → fsStat fs ref = false →
      fsStat fs (lastSeg ref ++ ".json") = false → fsStat fs (lastSeg ref) = false →
      LoadModule fs cache ref = (Except.error ("找不到模块文件: " ++ ref), cache, 0)) ∧
    (alLookup cache ref = none →
      alLookup fs (ref ++ ".json") = some none →
      LoadModule fs cache ref = (Except.error "模块文件JSON格式错误", cache, 1)) := by
  refine ⟨?_, ?_, ?_, ?_, ?_, ?_, ?_⟩
  · intro m hhit
    simp [LoadModule, hhit]
  · intro data hmiss hc1
    have hs1 : fsStat fs (ref ++ ".json") = true := fsStat_of_alLookup fs _ _ hc1
    simp [LoadModule, hmiss, candidatePaths, List.find?_cons, hs1,
      strEq_append_json_empty, hc1]
  · intro data hmiss hne hs1 hc2
    have hs2 : fsStat fs ref = true := fsStat_of_alLookup fs _ _ hc2
    simp [LoadModule, hmiss, candidatePaths, List.find?_cons, hs1, hs2,
      strEq_empty_false_of_ne ref hne, hc2]
  · intro data hmiss hs1 hs2 hc3
    have hs3 : fsStat fs (lastSeg ref ++ ".json") = true := fsStat_of_alLookup fs _ _ hc3
    simp [LoadModule, hmiss, candidatePaths, List.find?_cons, hs1, hs2, hs3,
      strEq_append_json_empty, hc3]
  · intro data hmiss hne hs1 hs2 hs3 hc4
    have hs4 : fsStat fs (lastSeg ref) = true := fsStat_of_alLookup fs _ _ hc4
    simp [LoadModule, hmiss, candidatePaths, List.find?_cons, hs1, hs2, hs3, hs4,
      strEq_empty_false_of_ne (lastSeg ref) hne, hc4]
  · intro hmiss hs1 hs2 hs3 hs4
    simp [LoadModule, hmiss, candidatePaths, List.find?_cons, hs1, hs2, hs3, hs4]
  · intro hmiss hc1
    have hs1 : fsStat fs (ref ++ ".json") = true := fsStat_of_alLookup fs _ _ hc1
    simp [LoadModule, hmiss, candidatePaths, List.find?_cons, hs1,
      strEq_append_json_empty, hc1]

/-- Parsed module data and file system of the C5 witness: only the file
sub.json exists. -/
def dataC5 : Obj := [("functions", vobj [])]

/-- The C5 witness file system. -/
def fsC5 : Fs := [("sub.json", some dataC5)]

/-- Witness for C5: loading "pkg.sub" when only sub.json exists succeeds
through the third candidate and caches under the literal string
"pkg.sub"; a second load of the identical string returns the cached
Program with zero file reads. -/
theorem claim_C5_loadModule_witness :
    (alLookup ([] : List (String × Program)) "pkg.sub" = none ∧
      fsStat fsC5 ("pkg.sub" ++ ".json") = false ∧ fsStat fsC5 "pkg.sub" = false ∧
      alLookup fsC5 (lastSeg "pkg.sub" ++ ".json") = some (some dataC5) ∧
      LoadModule fsC5 [] "pkg.sub" =
        (Except.ok (NewJSONProgram dataC5),
         alSet [] "pkg.sub" (NewJSONProgram dataC5), 1)) ∧
    (alLookup (alSet [] "pkg.sub" (NewJSONProgram dataC5)) "pkg.sub" =
        some (NewJSONProgram dataC5) ∧
      LoadModule fsC5 (alSet [] "pkg.sub" (NewJSONProgram dataC5)) "pkg.sub" =
        (Except.ok (NewJSONProgram dataC5),
         alSet [] "pkg.sub" (NewJSONProgram dataC5), 0)) :=
  ⟨⟨rfl, rfl, rfl, rfl,
    (claim_C5_loadModule fsC5 [] "pkg.sub").2.2.2.1 dataC5 rfl rfl rfl rfl⟩,
   ⟨rfl,
    (claim_C5_loadModule fsC5 (alSet [] "pkg.sub" (NewJSONProgram dataC5)) "pkg.sub").1
      (NewJSONProgram dataC5) rfl⟩⟩

/-! Data for the modifier claim: a modifier named M whose condition
string is the absent-args test and whose single action assigns the empty
list to function.args.  The spec's data model (section 3) names the
condition field "condition"; the source reads the key "condiction"
(line 968), so both spellings are set up. -/

/-- The assignment action of modifier M. -/
def modifierActionC1 : Obj :=
  [("type", vstr "assignment"), ("target", vstr "function.args"),
   ("value", vlist [])]

/-- Modifier M with its condition under the key "condition", the field
name the specification's data model gives it. -/
def modifierDefCondition : Obj :=
  [("name", vstr "M"), ("condition", vstr "function.args == undefined"),
   ("actions", vlist [vobj modifierActionC1])]

/-- Modifier M with its condition under the key "condiction", the key
applyModifier actually reads. -/
def modifierDefCondiction : Obj :=
  [("name", vstr "M"), ("condiction", vstr "function.args == undefined"),
   ("actions", vlist [vobj modifierActionC1])]

/-- A function definition that already has an "args" entry and lists M. -/
def funcWithArgs : Obj :=
  [("args", vnum 1), ("modifiers", vlist [vstr "M"])]

/-- The program of the counterexample: one function with args present,
and modifier M spelled with the "condition" key. -/
def progC1 : Program :=
  Program.mk [] [] [("f", funcWithArgs)] [modifierDefCondition] []

/-- Evaluating the absent-args condition string returns exactly whether
the "args" entry is missing. -/
theorem evaluateCondition_args (fd : Obj) :
    evaluateCondition fd "function.args == undefined" =
      !(objLookup fd "args").isSome := rfl

/-- Applying M's assignment action writes the empty list into "args". -/
theorem executeModifierAction_C1 (fd : Obj) :
    executeModifierAction fd modifierActionC1 = objSet fd "args" (vlist []) := rfl

/-- The modifier pass on one function listing exactly M, when the first
modifier definition named M carries its condition under the key
"condiction": with "args" absent the action fires, otherwise nothing
happens. -/
theorem applyModsToFunc_M (mods : List Obj) (fd : Obj)
    (hM : mods.find? (modNamePred "M") = some modifierDefCondiction)
    (hlist : objLookup fd "modifiers" = some (vlist [vstr "M"])) :
    applyModsToFunc mods fd =
      (if (objLookup fd "args").isSome then fd else objSet fd "args" (vlist [])) := by
  have hc : objLookup modifierDefCondiction "condiction" =
      some (vstr "function.args == undefined") := rfl
  have ha : objLookup modifierDefCondiction "actions" =
      some (vlist [vobj modifierActionC1]) := rfl
  simp only [applyModsToFunc, hlist, List.foldl_cons, List.foldl_nil]
  simp only [applyModifier, hM, hc, ha, evaluateCondition_args fd]
  cases hs : (objLookup fd "args").isSome with
  | false => simp [hs, executeModifierAction_C1 fd]
  | true => simp [hs]

/-- C1 counterexample: in the program whose modifier M carries the
condition string under the field name "condition" that the specification
gives it, the function "f" already has an "args" entry, yet
applyModifiers does not leave its definition untouched (the actions run
unconditionally because the source reads the misspelled key "condiction"
and treats the absent entry as a passing condition). -/
theorem claim_C1_counterexample :
    ¬ (alLookup (applyModifiers progC1).functions "f" = some funcWithArgs) := by
  have h : alLookup (applyModifiers progC1).functions "f" =
      some [("args", vlist []), ("modifiers", vlist [vstr "M"])] := rfl
  rw [h]
  simp [funcWithArgs]

/-- C1 amended: with modifier M's condition string stored under the key
"condiction" (the key applyModifier reads; a condition stored under
"condition" is never evaluated and the actions run unconditionally),
applyModifiers applied to a program whose first modifier definition named
M is that modifier sets a listing function's absent "args" to the empty
list, and leaves a listing function that already has "args" untouched. -/
theorem claim_C1_amended (p : Program) (fname : String) (fd : Obj)
    (hM : p.modifiersL.find? (modNamePred "M") = some modifierDefCondiction)
    (hfd : alLookup p.functions fname = some fd)
    (hlist : objLookup fd "modifiers" = some (vlist [vstr "M"])) :
    (objLookup fd "args" = none →
      alLookup (applyModifiers p).functions fname = some (objSet fd "args" (vlist [])) ∧
      objLookup (objSet fd "args" (vlist [])) "args" = some (vlist [])) ∧
    (∀ v, objLookup fd "args" = some v →
      alLookup (applyModifiers p).functions fname = some fd) := by
  have hmap : (applyModifiers p).functions =
      p.functions.map (fun kv => (kv.1, applyModsToFunc p.modifiersL kv.2)) := rfl
  constructor
  · intro habs
    constructor
    · rw [hmap, alLookup_map_val, hfd, Option.map_some']
      rw [applyModsToFunc_M p.modifiersL fd hM hlist]
      simp [habs]
    · exact objLookup_objSet_self fd "args" (vlist [])
  · intro v hv
    rw [hmap, alLookup_map_val, hfd, Option.map_some']
    rw [applyModsToFunc_M p.modifiersL fd hM hlist]
    simp [hv]

/-- The program of the amended claim's witness: modifier M spelled with
the "condiction" key, one listing function without "args" and one with
it. -/
def progC1b : Program :=
  Program.mk [] []
    [("g", [("modifiers", vlist [vstr "M"])]),
     ("h", [("args", vnum 1), ("modifiers", vlist [vstr "M"])])]
    [modifierDefCondiction] []

/-- Witness for the amended C1 at the concrete program: the function
without "args" gains the empty list, the one with "args" is returned
unchanged. -/
theorem claim_C1_amended_witness :
    (objLookup [("modifiers", vlist [vstr "M"])] "args" = none ∧
      alLookup (applyModifiers progC1b).functions "g" =
        some [("modifiers", vlist [vstr "M"]), ("args", vlist [])]) ∧
    (objLookup [("args", vnum 1), ("modifiers", vlist [vstr "M"])] "args" = some (vnum 1) ∧
      alLookup (applyModifiers progC1b).functions "h" =
        some [("args", vnum 1), ("modifiers", vlist [vstr "M"])]) :=
  ⟨⟨rfl, ((claim_C1_amended progC1b "g" [("modifiers", vlist [vstr "M"])] rfl rfl rfl).1 rfl).1⟩,
   ⟨rfl, (claim_C1_amended progC1b "h" [("args", vnum 1), ("modifiers", vlist [vstr "M"])]
      rfl rfl rfl).2 (vnum 1) rfl⟩⟩

/-- C6: executeFunction iterates the actions of a function with an
actions list in order; an action tagged literal, variable_declaration,
assignment, if_statement, loop or return is skipped without aborting
execution; the overall result is the result of the last function_call
action executed, or nil when the actions list contains no
function_call. -/
theorem claim_C6_action_loop (fuel : Nat) (fs : Fs) :
    (∀ (m : Obj) (t : String) (rest : List GoVal) (p : Program) (r : GoVal),
      objLookup m "type" = some (vstr t) →
      t ∈ (["literal", "variable_declaration", "assignment", "if_statement",
            "loop", "return"] : List String) →
      runActs (callAt fuel fs) (vobj m :: rest) p r =
        runActs (callAt fuel fs) rest p r) ∧
    (∀ (p : Program) (fn : String) (args : List GoVal) (fd : Obj) (acts : List GoVal),
      alLookup p.functions fn = some fd →
      objLookup fd "actions" = some (vlist acts) →
      (∀ b ∈ acts, isFunctionCallA b = false) →
      (executeFunction fuel fs p fn args).1 = vnull) ∧
    (∀ (p : Program) (fn : String) (args : List GoVal) (fd : Obj)
        (pre post : List GoVal) (m : Obj),
      alLookup p.functions fn = some fd →
      objLookup fd "actions" = some (vlist (pre ++ vobj m :: post)) →
      objLookup m "type" = some (vstr "function_call") →
      (∀ b ∈ post, isFunctionCallA b = false) →
      (executeFunction fuel fs p fn args).1 =
        (executeFunctionCall fuel fs (runActs (callAt fuel fs) pre p vnull).2 m).1) := by
  refine ⟨?_, ?_, ?_⟩
  · intro m t rest p r ht hmem
    have hne : isFunctionCallA (vobj m) = false := by
      have h : isFunctionCallA (vobj m) = (t == "function_call") := by
        simp [isFunctionCallA, ht]
      rw [h]
      rcases (by simpa using hmem : t = "literal" ∨ t = "variable_declaration" ∨
        t = "assignment" ∨ t = "if_statement" ∨ t = "loop" ∨ t = "return") with
        rfl | rfl | rfl | rfl | rfl | rfl <;> rfl
    exact runActs_skip _ _ _ _ _ hne
  · intro p fn args fd acts hfd hacts hnone
    have h : executeFunction fuel fs p fn args =
        runActs (callAt fuel fs) acts p vnull := by
      simp [executeFunction, executeFunctionWith, hfd, hacts]
    rw [h, runActs_no_calls _ _ _ _ hnone]
  · intro p fn args fd pre post m hfd hacts hty hpost
    have h : executeFunction fuel fs p fn args =
        runActs (callAt fuel fs) (pre ++ vobj m :: post) p vnull := by
      simp [executeFunction, executeFunctionWith, hfd, hacts]
    have hm : isFunctionCallA (vobj m) = true := by
      simp [isFunctionCallA, hty]
    rw [h, runActs_append, runActs_call_step _ _ _ _ _ hm,
      runActs_no_calls _ _ _ _ hpost]
    rfl

/-- The literal action of the C6 witness program. -/
def litActC6 : Obj := [("type", vstr "literal")]

/-- The return action of the C6 witness program. -/
def retActC6 : Obj := [("type", vstr "return")]

/-- The add call of the C6 witness program. -/
def addCallC6 : Obj :=
  [("type", vstr "function_call"), ("function", vstr "add"),
   ("args", vlist [vobj [("type", vstr "Number"), ("value", vnum 2)],
                   vobj [("type", vstr "Number"), ("value", vnum 3)]])]

/-- The C6 witness program: main runs a literal, the add call, then a
return action; noop runs only a literal. -/
def progC6 : Program :=
  Program.mk [] []
    [("main", [("actions", vlist [vobj litActC6, vobj addCallC6, vobj retActC6])]),
     ("noop", [("actions", vlist [vobj litActC6])])]
    [] []

/-- Witness for C6 at the concrete program: main's result is the add
call's result (the literal and return actions are skipped), noop's
result is nil, and the value is 2 + 3. -/
theorem claim_C6_action_loop_witness :
    (objLookup addCallC6 "type" = some (vstr "function_call") ∧
      (executeFunction 1 [] progC6 "main" []).1 =
        (executeFunctionCall 1 []
          (runActs (callAt 1 []) [vobj litActC6] progC6 vnull).2 addCallC6).1) ∧
    (executeFunction 1 [] progC6 "noop" []).1 = vnull ∧
    (executeFunction 1 [] progC6 "main" []).1 = vnum (2 + 3) :=
  ⟨⟨rfl, (claim_C6_action_loop 1 []).2.2 progC6 "main" [] _ [vobj litActC6]
      [vobj retActC6] addCallC6 rfl rfl rfl
      (fun b hb => by rw [List.mem_singleton] at hb; subst hb; rfl)⟩,
   (claim_C6_action_loop 1 []).2.1 progC6 "noop" [] _ [vobj litActC6] rfl rfl
      (fun b hb => by rw [List.mem_singleton] at hb; subst hb; rfl),
   rfl⟩

/-- C3: evaluation failures are ordinary Error values, never raised: an
undefined function, a missing actions list, an unregistered backend
operation, a backend divide by zero, a module-load failure mid-call and a
missing module function each return a GoVal.verr through the same value
channel as success; a function_call action, error or not, hands the
threaded state to the remaining actions, whose execution continues; an
earlier error value never reaches the overall result when a later
function_call exists, and when no function_call follows, the running
value (the last call's result) is the overall result. -/
theorem claim_C3_errors_as_values (fuel : Nat) (fs : Fs) :
    (∀ (p : Program) (fn : String) (args : List GoVal),
      alLookup p.functions fn = none →
      (executeFunction fuel fs p fn args).1 = verr ("函数 '" ++ fn ++ "' 未定义")) ∧
    (∀ (p : Program) (fn : String) (args : List GoVal) (fd : Obj),
      alLookup p.functions fn = some fd →
      (∀ l, objLookup fd "actions" ≠ some (vlist l)) →
      (executeFunction fuel fs p fn args).1 =
        verr ("函数 '" ++ fn ++ "' 缺少actions字段")) ∧
    (∀ (name : String) (args : List GoVal),
      alLookup GoBackend.registry name = none →
      GoBackend.ExecuteFunction name args = verr ("函数 '" ++ name ++ "' 不存在")) ∧
    (∀ a : GoVal, isErrV (GoBackend.ExecuteFunction "divide" [a, vnum 0]) = true) ∧
    (∀ (p : Program) (ref : String) (args : List GoVal) (e : String)
        (c2 : List (String × Program)) (r : Nat),
      goContains ref "." = true → goHasPre ref "jsonlang." = false →
      2 ≤ (goSplit ref ".").length →
      LoadModule fs p.loadedModules (modPath ref) = (Except.error e, c2, r) →
      (dispatchRef fuel fs p ref args).1 = verr ("导入模块失败: " ++ e)) ∧
    (∀ (p : Program) (ref : String) (args : List GoVal) (mp : Program)
        (c2 : List (String × Program)) (r : Nat),
      goContains ref "." = true → goHasPre ref "jsonlang." = false →
      2 ≤ (goSplit ref ".").length →
      LoadModule fs p.loadedModules (modPath ref) = (Except.ok mp, c2, r) →
      mp.HasFunction (lastSeg ref) = false →
      (dispatchRef fuel fs p ref args).1 =
        verr ("模块 '" ++ modPath ref ++ "' 中没有函数 '" ++ lastSeg ref ++ "'")) ∧
    (∀ (m : Obj) (rest : List GoVal) (p : Program) (r : GoVal),
      objLookup m "type" = some (vstr "function_call") →
      runActs (callAt fuel fs) (vobj m :: rest) p r =
        runActs (callAt fuel fs) rest
          (executeFunctionCall fuel fs p m).2 (executeFunctionCall fuel fs p m).1) ∧
    (∀ (post : List GoVal) (p : Program) (v w : GoVal),
      (∃ b ∈ post, isFunctionCallA b = true) →
      (runActs (callAt fuel fs) post p v).1 = (runActs (callAt fuel fs) post p w).1) ∧
    (∀ (post : List GoVal) (p : Program) (v : GoVal),
      (∀ b ∈ post, isFunctionCallA b = false) →
      (runActs (callAt fuel fs) post p v).1 = v) := by
  refine ⟨?_, ?_, ?_, fun a => rfl, ?_, ?_, ?_, ?_, ?_⟩
  · intro p fn args h
    simp [executeFunction, executeFunctionWith, h]
  · intro p fn args fd hfd hne
    simp only [executeFunction, executeFunctionWith, hfd]
  · intro name args h
    have hf : GoBackend.registry.find? (fun kv => kv.1 == name) = none := by
      cases hx : GoBackend.registry.find? (fun kv => kv.1 == name) with
      | none => rfl
      | some kv => rw [alLookup, hx] at h; simp at h
    simp [GoBackend.ExecuteFunction, hf]
  · intro p ref args e c2 r hcont hpre hlen hLM
    simp [dispatchRef, dispatchRefWith, hcont, hpre, hlen, hLM]
  · intro p ref args mp c2 r hcont hpre hlen hLM hhf
    simp [dispatchRef, dispatchRefWith, hcont, hpre, hlen, hLM, hhf]
  · intro m rest p r hty
    have hm : isFunctionCallA (vobj m) = true := by simp [isFunctionCallA, hty]
    exact runActs_call_step _ _ _ _ _ hm
  · intro post p v w h
    exact runActs_result_irrel _ _ _ _ _ h
  · intro post p v h
    rw [runActs_no_calls _ _ _ _ h]

/-! Unfolding lemmas for one step of executeFunctionCall under each
resolution outcome, shared by the resolver claims. -/

theorem execCall_function_hit (fuel : Nat) (fs : Fs) (p : Program) (m : Obj)
    (fn : String) (fd : Obj)
    (h0 : objLookup m "function" = some (vstr fn))
    (hfd : alLookup p.functions fn = some fd) :
    executeFunctionCall (fuel + 1) fs p m = executeFunction fuel fs p fn (evalArgs m) := by
  have hhas : p.HasFunction fn = true := by simp [Program.HasFunction, hfd]
  simp only [executeFunctionCall, h0, hhas, if_true]
  rfl

theorem execCall_import_hit (fuel : Nat) (fs : Fs) (p : Program) (m : Obj)
    (fn ref : String)
    (h0 : objLookup m "function" = some (vstr fn))
    (h1 : alLookup p.functions fn = none)
    (h2 : alLookup p.imports fn = some ref) :
    executeFunctionCall (fuel + 1) fs p m = dispatchRef fuel fs p ref (evalArgs m) := by
  have hhas : p.HasFunction fn = false := by simp [Program.HasFunction, h1]
  simp only [executeFunctionCall, h0, hhas, Bool.false_eq_true, if_false, h2]
  rfl

theorem execCall_imports_scan (fuel : Nat) (fs : Fs) (p : Program) (m : Obj)
    (fn bare : String)
    (h0 : objLookup m "function" = some (vstr fn))
    (h1 : alLookup p.functions fn = none)
    (h2 : alLookup p.imports fn = none)
    (h3 : goHasPre fn "imports." = true)
    (h4 : goTrimPre fn "imports." = bare) :
    executeFunctionCall (fuel + 1) fs p m =
      (if (((p.imports.find? (fun kv => kv.2 == bare)).map (fun kv => kv.1)).getD "") == ""
       then (GoBackend.ExecuteFunction bare (evalArgs m), p)
       else dispatchRef fuel fs p
         (((p.imports.find? (fun kv => kv.2 == bare)).map (fun kv => kv.1)).getD "")
         (evalArgs m)) := by
  have hhas : p.HasFunction fn = false := by simp [Program.HasFunction, h1]
  simp only [executeFunctionCall, h0, hhas, Bool.false_eq_true, if_false, h2, h3,
    if_true, h4]
  by_cases hip : (((p.imports.find? (fun kv => kv.2 == bare)).map (fun kv => kv.1)).getD "") == ""
  · simp only [hip, if_true]
  · simp only [Bool.not_eq_true] at hip
    simp only [hip, Bool.false_eq_true, if_false]
    rfl

/-- C2: a call whose name begins with "imports." (and resolves neither as
a program function nor as an imports key) strips the prefix to a bare
name and reverse-scans the imports map for an entry whose value equals
the bare name; such an entry's reference (the dotted key found by the
reverse scan) receives exactly the shared rule-2 interpretation
dispatchRef, the same interpretation a direct import hit receives (first
conjunct); with no matching entry, or with the empty-string key that
doubles as the source's not-found sentinel, the bare name goes directly
to Backend.execute. -/
theorem claim_C2_imports_name_resolution (fuel : Nat) (fs : Fs) :
    (∀ (p : Program) (m : Obj) (fn ref : String),
      objLookup m "function" = some (vstr fn) →
      alLookup p.functions fn = none →
      alLookup p.imports fn = some ref →
      executeFunctionCall (fuel + 1) fs p m = dispatchRef fuel fs p ref (evalArgs m)) ∧
    (∀ (p : Program) (m : Obj) (fn bare : String),
      objLookup m "function" = some (vstr fn) →
      goHasPre fn "imports." = true →
      goTrimPre fn "imports." = bare →
      alLookup p.functions fn = none →
      alLookup p.imports fn = none →
      ((∀ kvp : String × String,
          p.imports.find? (fun kv => kv.2 == bare) = some kvp →
          kvp.1 ≠ "" →
          executeFunctionCall (fuel + 1) fs p m =
            dispatchRef fuel fs p kvp.1 (evalArgs m)) ∧
       (p.imports.find? (fun kv => kv.2 == bare) = none →
          executeFunctionCall (fuel + 1) fs p m =
            (GoBackend.ExecuteFunction bare (evalArgs m), p)))) := by
  constructor
  · intro p m fn ref h0 h1 h2
    exact execCall_import_hit fuel fs p m fn ref h0 h1 h2
  · intro p m fn bare h0 h3 h4 h1 h2
    constructor
    · intro kvp hfind hk
      rw [execCall_imports_scan fuel fs p m fn bare h0 h1 h2 h3 h4, hfind]
      simp [strEq_empty_false_of_ne kvp.1 hk]
    · intro hfind
      rw [execCall_imports_scan fuel fs p m fn bare h0 h1 h2 h3 h4, hfind]
      simp

theorem dispatchRef_jsonlang (fuel : Nat) (fs : Fs) (p : Program) (ref : String)
    (args : List GoVal) (h : goHasPre ref "jsonlang." = true) :
    dispatchRef fuel fs p ref args =
      (GoBackend.ExecuteFunction (lastSeg (goTrimPre ref "jsonlang.")) args, p) := by
  have hcond : (goContains ref "." && !goHasPre ref "jsonlang.") = false := by
    simp [h]
  simp only [dispatchRef, dispatchRefWith, hcond, Bool.false_eq_true, if_false,
    dispatchBackendRef, h, if_true]
  cases hc : goContains (goTrimPre ref "jsonlang.") "." with
  | true => simp [hc]
  | false => simp [hc, lastSeg_of_not_contains _ hc]

/-- C4: resolveCall precedence.  A name that is a function of the current
program is executed there (first conjunct); otherwise an import entry's
reference receives the shared interpretation dispatchRef (third
conjunct), which for a dotted reference outside the jsonlang namespace
splits at the last dot, loads the module named by the prefix and executes
the suffix there, failing with a module-function-not-found error value
when the suffix is absent and with a load-failure error value when the
module cannot be loaded (second conjunct); a reference in the jsonlang
namespace is stripped and only its final dot-segment is dispatched to
Backend.execute (fourth conjunct). -/
theorem claim_C4_resolver_precedence (fuel : Nat) (fs : Fs) :
    (∀ (p : Program) (m : Obj) (fn : String) (fd : Obj),
      objLookup m "function" = some (vstr fn) →
      alLookup p.functions fn = some fd →
      executeFunctionCall (fuel + 1) fs p m =
        executeFunction fuel fs p fn (evalArgs m)) ∧
    (∀ (p : Program) (ref : String) (args : List GoVal),
      goContains ref "." = true → goHasPre ref "jsonlang." = false →
      2 ≤ (goSplit ref ".").length →
      (∀ (mp : Program) (c2 : List (String × Program)) (r : Nat),
        LoadModule fs p.loadedModules (modPath ref) = (Except.ok mp, c2, r) →
        ((mp.HasFunction (lastSeg ref) = true →
          (dispatchRef fuel fs p ref args).1 =
            (executeFunction fuel fs mp (lastSeg ref) args).1) ∧
         (mp.HasFunction (lastSeg ref) = false →
          dispatchRef fuel fs p ref args =
            (verr ("模块 '" ++ modPath ref ++ "' 中没有函数 '" ++ lastSeg ref ++ "'"),
             p.withLoaded c2)))) ∧
      (∀ (e : String) (c2 : List (String × Program)) (r : Nat),
        LoadModule fs p.loadedModules (modPath ref) = (Except.error e, c2, r) →
        dispatchRef fuel fs p ref args =
          (verr ("导入模块失败: " ++ e), p.withLoaded c2))) ∧
    (∀ (p : Program) (m : Obj) (fn ref : String),
      objLookup m "function" = some (vstr fn) →
      alLookup p.functions fn = none →
      alLookup p.imports fn = some ref →
      executeFunctionCall (fuel + 1) fs p m = dispatchRef fuel fs p ref (evalArgs m)) ∧
    (∀ (p : Program) (ref : String) (args : List GoVal),
      goHasPre ref "jsonlang." = true →
      dispatchRef fuel fs p ref args =
        (GoBackend.ExecuteFunction (lastSeg (goTrimPre ref "jsonlang.")) args, p)) := by
  refine ⟨?_, ?_, ?_, ?_⟩
  · intro p m fn fd h0 hfd
    exact execCall_function_hit fuel fs p m fn fd h0 hfd
  · intro p ref args hcont hpre hlen
    constructor
    · intro mp c2 r hLM
      constructor
      · intro hhf
        simp [dispatchRef, dispatchRefWith, hcont, hpre, hlen, hLM, hhf,
          executeFunction, executeFunctionWith, callAt]
      · intro hhf
        simp [dispatchRef, dispatchRefWith, hcont, hpre, hlen, hLM, hhf]
    · intro e c2 r hLM
      simp [dispatchRef, dispatchRefWith, hcont, hpre, hlen, hLM]
  · intro p m fn ref h0 h1 h2
    exact execCall_import_hit fuel fs p m fn ref h0 h1 h2
  · intro p ref args h
    exact dispatchRef_jsonlang fuel fs p ref args h

/-- The C4 witness program: one local function, an import of a module
function, a broken import, and a jsonlang import. -/
def progC4 : Program :=
  Program.mk []
    [("util", "mathmod.helper"), ("plus", "jsonlang.math.add"), ("bad", "nomod.fn")]
    [("local", [("actions", vlist [])])] [] []

/-- The C4 witness file system: mathmod.json defines a helper function
with an empty actions list. -/
def fsC4 : Fs :=
  [("mathmod.json", some [("functions",
    vobj [("helper", vobj [("actions", vlist [])])])])]

/-- The module of the C4 witness as loaded. -/
def mpC4 : Program :=
  NewJSONProgram [("functions", vobj [("helper", vobj [("actions", vlist [])])])]

/-- The C4 witness call to the local function. -/
def callC4local : Obj :=
  [("type", vstr "function_call"), ("function", vstr "local")]

/-- The C4 witness call to the module import. -/
def callC4util : Obj :=
  [("type", vstr "function_call"), ("function", vstr "util")]

/-- Witness for C4: the local function wins over the backend, the
module's entry loads mathmod and runs helper there, the missing module is a
load-failure error value, the missing module function is a
module-function-not-found error value, and the jsonlang import dispatches
its final segment add to the backend. -/
theorem claim_C4_resolver_precedence_witness :
    (alLookup progC4.functions "local" = some [("actions", vlist [])] ∧
      executeFunctionCall 1 fsC4 progC4 callC4local =
        executeFunction 0 fsC4 progC4 "local" (evalArgs callC4local)) ∧
    (alLookup progC4.imports "util" = some "mathmod.helper" ∧
      executeFunctionCall 1 fsC4 progC4 callC4util =
        dispatchRef 0 fsC4 progC4 "mathmod.helper" (evalArgs callC4util)) ∧
    (LoadModule fsC4 progC4.loadedModules (modPath "mathmod.helper") =
        (Except.ok mpC4, alSet [] "mathmod" mpC4, 1) ∧
      mpC4.HasFunction "helper" = true ∧
      (dispatchRef 0 fsC4 progC4 "mathmod.helper" []).1 =
        (executeFunction 0 fsC4 mpC4 "helper" []).1) ∧
    (mpC4.HasFunction "nofn" = false ∧
      dispatchRef 0 fsC4 progC4 "mathmod.nofn" [] =
        (verr "模块 'mathmod' 中没有函数 'nofn'",
         progC4.withLoaded (alSet [] "mathmod" mpC4))) ∧
    (dispatchRef 0 fsC4 progC4 "nomod.fn" [] =
        (verr "导入模块失败: 找不到模块文件: nomod", progC4.withLoaded [])) ∧
    (goHasPre "jsonlang.math.add" "jsonlang." = true ∧
      dispatchRef 0 [] progC4 "jsonlang.math.add" [vnum 2, vnum 3] =
        (GoBackend.ExecuteFunction "add" [vnum 2, vnum 3], progC4)) :=
  ⟨⟨rfl, (claim_C4_resolver_precedence 0 fsC4).1 progC4 callC4local "local"
      [("actions", vlist [])] rfl rfl⟩,
   ⟨rfl, (claim_C4_resolver_precedence 0 fsC4).2.2.1 progC4 callC4util "util"
      "mathmod.helper" rfl rfl rfl⟩,
   ⟨rfl, rfl,
    (((claim_C4_resolver_precedence 0 fsC4).2.1 progC4 "mathmod.helper" [] rfl rfl
      (by decide)).1 mpC4 (alSet [] "mathmod" mpC4) 1 rfl).1 rfl⟩,
   ⟨rfl,
    (((claim_C4_resolver_precedence 0 fsC4).2.1 progC4 "mathmod.nofn" [] rfl rfl
      (by decide)).1 mpC4 (alSet [] "mathmod" mpC4) 1 rfl).2 rfl⟩,
   ((claim_C4_resolver_precedence 0 fsC4).2.1 progC4 "nomod.fn" [] rfl rfl
      (by decide)).2 "找不到模块文件: nomod" [] 0 rfl,
   ⟨rfl, (claim_C4_resolver_precedence 0 []).2.2.2 progC4 "jsonlang.math.add"
      [vnum 2, vnum 3] rfl⟩⟩

/-- The C2 witness program: its single import entry maps the reference
key "jsonlang.math.add" to the bare value "myadd". -/
def progC2 : Program :=
  Program.mk [] [("jsonlang.math.add", "myadd")] [] [] []

/-- The C2 witness call to imports.myadd with arguments 2 and 3. -/
def callC2 : Obj :=
  [("type", vstr "function_call"), ("function", vstr "imports.myadd"),
   ("args", vlist [vobj [("type", vstr "Number"), ("value", vnum 2)],
                   vobj [("type", vstr "Number"), ("value", vnum 3)]])]

/-- The C2 witness call to a name no import entry's value matches. -/
def callC2none : Obj :=
  [("type", vstr "function_call"), ("function", vstr "imports.zzz")]

/-- Witness for C2: imports.myadd reverse-scans to the entry whose value
is "myadd", whose key "jsonlang.math.add" is rule-2-interpreted down to
the backend add of 2 and 3; imports.zzz finds no entry and goes to the
backend directly, an undefined-function error value there. -/
theorem claim_C2_imports_name_resolution_witness :
    (progC2.imports.find? (fun kv => kv.2 == "myadd") =
        some ("jsonlang.math.add", "myadd") ∧
      executeFunctionCall 1 [] progC2 callC2 =
        dispatchRef 0 [] progC2 "jsonlang.math.add" (evalArgs callC2) ∧
      (executeFunctionCall 1 [] progC2 callC2).1 = vnum (2 + 3)) ∧
    (progC2.imports.find? (fun kv => kv.2 == "zzz") = none ∧
      executeFunctionCall 1 [] progC2 callC2none =
        (GoBackend.ExecuteFunction "zzz" (evalArgs callC2none), progC2) ∧
      (executeFunctionCall 1 [] progC2 callC2none).1 = verr "函数 'zzz' 不存在") :=
  ⟨⟨rfl,
    ((claim_C2_imports_name_resolution 0 []).2 progC2 callC2 "imports.myadd" "myadd"
      rfl rfl rfl rfl rfl).1 ("jsonlang.math.add", "myadd") rfl (by decide),
    rfl⟩,
   ⟨rfl,
    ((claim_C2_imports_name_resolution 0 []).2 progC2 callC2none "imports.zzz" "zzz"
      rfl rfl rfl rfl rfl).2 rfl,
    rfl⟩⟩

/-- An empty program for the C3 witness. -/
def progC3empty : Program := Program.mk [] [] [] [] []

/-- A program whose one function lacks an actions list, for C3. -/
def progC3noActs : Program := Program.mk [] [] [("f", [])] [] []

/-- The file system of C3's missing-module-function case: mod2.json
exists but defines no functions. -/
def fsC3 : Fs := [("mod2.json", some [("functions", vobj [])])]

/-- A function_call action for C3's continuation case. -/
def someCallC3 : Obj := [("type", vstr "function_call"), ("function", vstr "add")]

/-- Witness for C3 at concrete inputs: an undefined function, a missing
actions list, an unregistered backend name, a failing and a
function-less module reference, and an earlier error value that a later
function_call hides while a trailing no-call suffix preserves it. -/
theorem claim_C3_errors_as_values_witness :
    (alLookup progC3empty.functions "nofn" = none ∧
      (executeFunction 1 [] progC3empty "nofn" []).1 = verr "函数 'nofn' 未定义") ∧
    ((executeFunction 1 [] progC3noActs "f" []).1 = verr "函数 'f' 缺少actions字段") ∧
    (alLookup GoBackend.registry "no_such_op" = none ∧
      GoBackend.ExecuteFunction "no_such_op" [] = verr "函数 'no_such_op' 不存在") ∧
    (LoadModule ([] : Fs) progC3empty.loadedModules (modPath "nomod.fn") =
        (Except.error "找不到模块文件: nomod", [], 0) ∧
      (dispatchRef 1 [] progC3empty "nomod.fn" []).1 =
        verr "导入模块失败: 找不到模块文件: nomod") ∧
    ((dispatchRef 1 fsC3 progC3empty "mod2.nofn" []).1 =
        verr "模块 'mod2' 中没有函数 'nofn'") ∧
    ((runActs (callAt 1 []) [vobj someCallC3] progC3empty (verr "x")).1 =
      (runActs (callAt 1 []) [vobj someCallC3] progC3empty vnull).1) ∧
    ((runActs (callAt 1 []) [vobj [("type", vstr "return")]] progC3empty (verr "x")).1 =
      verr "x") :=
  ⟨⟨rfl, (claim_C3_errors_as_values 1 []).1 progC3empty "nofn" [] rfl⟩,
   (claim_C3_errors_as_values 1 []).2.1 progC3noActs "f" [] [] rfl (fun l h => nomatch h),
   ⟨rfl, (claim_C3_errors_as_values 1 []).2.2.1 "no_such_op" [] rfl⟩,
   ⟨rfl, (claim_C3_errors_as_values 1 []).2.2.2.2.1 progC3empty "nomod.fn" []
      "找不到模块文件: nomod" [] 0 rfl rfl (by decide) rfl⟩,
   (claim_C3_errors_as_values 1 fsC3).2.2.2.2.2.1 progC3empty "mod2.nofn" []
      (NewJSONProgram [("functions", vobj [])]) (alSet [] "mod2"
        (NewJSONProgram [("functions", vobj [])])) 1 rfl rfl (by decide) rfl rfl,
   (claim_C3_errors_as_values 1 []).2.2.2.2.2.2.2.1 [vobj someCallC3] progC3empty
      (verr "x") vnull ⟨vobj someCallC3, by simp, rfl⟩,
   (claim_C3_errors_as_values 1 []).2.2.2.2.2.2.2.2 [vobj [("type", vstr "return")]]
      progC3empty (verr "x")
      (fun b hb => by rw [List.mem_singleton] at hb; subst hb; rfl)⟩

/-- Witness for C7 at concrete inputs: sqrt at -1, array_get at index 5
of a three-element list, array_get on a string, add with one argument. -/
theorem claim_C7_witness :
    ((-1 : ℚ) < 0 ∧ isErrV (GoBackend.ExecuteFunction "sqrt" [vnum (-1)]) = true) ∧
    (((5 : Int) < 0 ∨ (([vnum 1, vnum 2, vnum 3] : List GoVal).length : Int) ≤ 5) ∧
      isErrV (GoBackend.ExecuteFunction "array_get"
        [vlist [vnum 1, vnum 2, vnum 3], vnum ((5 : Int) : ℚ)]) = true) ∧
    (isListV (vstr "x") = false ∧
      isErrV (GoBackend.ExecuteFunction "array_get" [vstr "x", vnum 0]) = true) ∧
    (([vnum 7] : List GoVal).length < 2 ∧
      GoBackend.ExecuteFunction "add" [vnum 7] = vnum 0) :=
  ⟨⟨by norm_num, claim_C7_backend_edge_policies.2.1 (-1) (by norm_num)⟩,
   ⟨by norm_num, claim_C7_backend_edge_policies.2.2.1 [vnum 1, vnum 2, vnum 3] 5 (by norm_num)⟩,
   ⟨rfl, claim_C7_backend_edge_policies.2.2.2.1 (vstr "x") (vnum 0) rfl⟩,
   ⟨by norm_num, claim_C7_backend_edge_policies.2.2.2.2.1 [vnum 7] (by norm_num)⟩⟩

end JL
